import Mathlib

/-!
Shallow embedding of the geometry kernel in `local_carla_api.py`: vectors,
Euler rotations, quaternions and rigid-body transforms, together with
theorems checking the specified properties against the code.

Python floats are modelled as exact real numbers; the library primitives
used by the source (`math.sin`, `math.cos`, `math.radians`, `np.arctan2`,
`np.linalg.norm`, `np.linalg.inv`, `np.clip`) are modelled by their exact
mathematical counterparts on `ℝ`.
-/

noncomputable section

/-- Model of `math.radians x = x * pi / 180`. -/
def radians (x : ℝ) : ℝ := x * (Real.pi / 180)

/-- Model of `math.degrees x = x * 180 / pi`. -/
def degrees (x : ℝ) : ℝ := x * (180 / Real.pi)

/-- Constant `RAD_TO_DEG = 180.0 / np.pi` from `Quaternion.as_rotation`. -/
def RAD_TO_DEG : ℝ := 180 / Real.pi

/-- Model of `np.arctan2 y x`: the angle of the point `(x, y)` in `(-π, π]`,
with `arctan2 0 0 = 0`, matching the `atan2` convention on exact reals. -/
def arctan2 (y x : ℝ) : ℝ :=
  if 0 < x then Real.arctan (y / x)
  else if x < 0 then
    (if 0 ≤ y then Real.arctan (y / x) + Real.pi else Real.arctan (y / x) - Real.pi)
  else
    (if 0 < y then Real.pi / 2 else if y < 0 then -(Real.pi / 2) else 0)

/-- Model of `np.clip a lo hi` (componentwise on scalars). -/
def clip (a lo hi : ℝ) : ℝ := min (max a lo) hi

/-- Model of class `Vector2D`. -/
structure Vector2D where
  x : ℝ
  y : ℝ

/-- Model of `Vector2D.__sub__`. -/
def Vector2D.sub (a b : Vector2D) : Vector2D := ⟨a.x - b.x, a.y - b.y⟩

/-- Model of `Vector2D.magnitude` = `np.linalg.norm([x, y])`. -/
def Vector2D.magnitude (v : Vector2D) : ℝ := Real.sqrt (v.x ^ 2 + v.y ^ 2)

/-- Model of `Vector2D.get_angle`: difference of the two `atan2` angles,
folded into `[-π, π]` by a single conditional shift. -/
def Vector2D.get_angle (self other : Vector2D) : ℝ :=
  let angle := arctan2 self.y self.x - arctan2 other.y other.x
  if angle > Real.pi then angle - 2 * Real.pi
  else if angle < -Real.pi then angle + 2 * Real.pi
  else angle

/-- Model of class `Vector3D` (also used for `Location`, which adds no
geometric state of its own). -/
structure Vector3D where
  x : ℝ
  y : ℝ
  z : ℝ

/-- Model of `Location`, a subclass of `Vector3D` with identical algebra. -/
abbrev Location := Vector3D

/-- Model of `Vector3D.as_vector_2D`: drops the z-axis. -/
def Vector3D.as_vector_2D (v : Vector3D) : Vector2D := ⟨v.x, v.y⟩

/-- Model of `Vector3D.rotate`: the component formulas are transcribed
verbatim from the source (`x_ = cos*x - sin*y`, `y_ = sin*x - cos*y`,
z passed through). -/
def Vector3D.rotate (v : Vector3D) (angle : ℝ) : Vector3D :=
  ⟨Real.cos (radians angle) * v.x - Real.sin (radians angle) * v.y,
   Real.sin (radians angle) * v.x - Real.cos (radians angle) * v.y,
   v.z⟩

/-- Model of class `Rotation`: Euler angles in degrees. -/
structure Rotation where
  pitch : ℝ
  yaw : ℝ
  roll : ℝ

/-- Model of `Rotation.get_right_vector`. -/
def Rotation.get_right_vector (r : Rotation) : Vector3D :=
  let cy := Real.cos (radians r.yaw)
  let sy := Real.sin (radians r.yaw)
  let cr := Real.cos (radians r.roll)
  let sr := Real.sin (radians r.roll)
  let cp := Real.cos (radians r.pitch)
  let sp := Real.sin (radians r.pitch)
  ⟨cy * sp * sr - sy * cr, sy * sp * sr + cy * cr, -cp * sr⟩

/-- Model of `Rotation.get_forward_vector`. -/
def Rotation.get_forward_vector (r : Rotation) : Vector3D :=
  let cp := Real.cos (radians r.pitch)
  let sp := Real.sin (radians r.pitch)
  let cy := Real.cos (radians r.yaw)
  let sy := Real.sin (radians r.yaw)
  ⟨cp * cy, cp * sy, sp⟩

/-- Model of `Rotation.get_up_vector`. -/
def Rotation.get_up_vector (r : Rotation) : Vector3D :=
  let cy := Real.cos (radians r.yaw)
  let sy := Real.sin (radians r.yaw)
  let cr := Real.cos (radians r.roll)
  let sr := Real.sin (radians r.roll)
  let cp := Real.cos (radians r.pitch)
  let sp := Real.sin (radians r.pitch)
  ⟨-cy * sp * cr - sy * sr, -sy * sp * cr + cy * sr, cp * cr⟩

/-- Model of the static method `Transform._create_matrix`: starts from
`np.identity(4)` and overwrites the rotation sub-block and translation
column exactly as in the source. -/
def Transform.create_matrix (location : Location) (rotation : Rotation) :
    Matrix (Fin 4) (Fin 4) ℝ :=
  let cy := Real.cos (radians rotation.yaw)
  let sy := Real.sin (radians rotation.yaw)
  let cr := Real.cos (radians rotation.roll)
  let sr := Real.sin (radians rotation.roll)
  let cp := Real.cos (radians rotation.pitch)
  let sp := Real.sin (radians rotation.pitch)
  !![cp * cy, cy * sp * sr - sy * cr, -cy * sp * cr - sy * sr, location.x;
     sy * cp, sy * sp * sr + cy * cr, -sy * sp * cr + cy * sr, location.y;
     sp, -cp * sr, cp * cr, location.z;
     0, 0, 0, 1]

/-- Model of class `Quaternion` (the derived `matrix` attribute, untouched
by every claim, is not carried). -/
structure Quaternion' where
  w : ℝ
  x : ℝ
  y : ℝ
  z : ℝ

/-- Model of `Quaternion.__init__`: normalizes the input 4-vector, or
collapses to the degenerate zero sentinel when the norm is below `1e-50`. -/
def Quaternion'.init (w x y z : ℝ) : Quaternion' :=
  let norm := Real.sqrt (w ^ 2 + x ^ 2 + y ^ 2 + z ^ 2)
  if norm < 1e-50 then ⟨0, 0, 0, 0⟩
  else ⟨w / norm, x / norm, y / norm, z / norm⟩

/-- Model of `Quaternion.from_rotation`: half-angle formulas with the
source's sign convention, normalized through `Quaternion.__init__`. -/
def Quaternion'.from_rotation (rotation : Rotation) : Quaternion' :=
  let roll_by_2 := radians rotation.roll / 2
  let pitch_by_2 := radians rotation.pitch / 2
  let yaw_by_2 := radians rotation.yaw / 2
  let cr := Real.cos roll_by_2
  let sr := Real.sin roll_by_2
  let cp := Real.cos pitch_by_2
  let sp := Real.sin pitch_by_2
  let cy := Real.cos yaw_by_2
  let sy := Real.sin yaw_by_2
  Quaternion'.init (cr * cp * cy + sr * sp * sy) (cr * sp * sy - sr * cp * cy)
    (-cr * sp * cy - sr * cp * sy) (cr * cp * sy - sr * sp * cy)

/-- Model of `Quaternion.as_rotation`: Euler extraction with the explicit
three-way gimbal-lock branch on `singularity_test = z*x - w*y` against the
threshold `0.4999995`. -/
def Quaternion'.as_rotation (q : Quaternion') : Rotation :=
  let singularity_test := q.z * q.x - q.w * q.y
  let yaw_y := 2 * (q.w * q.z + q.x * q.y)
  let yaw_x := 1 - 2 * (q.y ^ 2 + q.z ^ 2)
  if singularity_test < -(0.4999995 : ℝ) then
    let yaw := arctan2 yaw_y yaw_x * RAD_TO_DEG
    ⟨-90, yaw, -yaw - 2 * arctan2 q.x q.w * RAD_TO_DEG⟩
  else if singularity_test > (0.4999995 : ℝ) then
    let yaw := arctan2 yaw_y yaw_x * RAD_TO_DEG
    ⟨90, yaw, yaw - 2 * arctan2 q.x q.w * RAD_TO_DEG⟩
  else
    ⟨Real.arcsin (2 * singularity_test) * RAD_TO_DEG,
     arctan2 yaw_y yaw_x * RAD_TO_DEG,
     arctan2 (-(2 * (q.w * q.x + q.y * q.z))) (1 - 2 * (q.x ^ 2 + q.y ^ 2)) *
       RAD_TO_DEG⟩

/-- Model of class `Transform`: the state of one instance. The fields
`inv_matrix`, `snapshot_location` and `snapshot_rotation` model the Python
attributes `_inv_matrix`, `_location` and `_rotation`. -/
structure Transform where
  location : Location
  rotation : Rotation
  matrix : Matrix (Fin 4) (Fin 4) ℝ
  forward_vector : Vector3D
  inv_matrix : Option (Matrix (Fin 4) (Fin 4) ℝ)
  snapshot_location : Location
  snapshot_rotation : Rotation

/-- Model of `Transform.__init__` when called with a location and a
rotation (the `matrix is None` branch of the source constructor). -/
def Transform.init_from_pose (location : Location) (rotation : Rotation) : Transform :=
  let m := Transform.create_matrix location rotation
  { location := location
    rotation := rotation
    matrix := m
    forward_vector := ⟨m 0 0, m 1 0, m 2 0⟩
    inv_matrix := none
    snapshot_location := location
    snapshot_rotation := rotation }

/-- Model of `Transform.__init__` when called with a raw 4x4 matrix:
location is read from the translation column and rotation is recovered from
the rotation sub-block with clamped inverse trigonometry. -/
def Transform.init_from_matrix (m : Matrix (Fin 4) (Fin 4) ℝ) : Transform :=
  let forward : Vector3D := ⟨m 0 0, m 1 0, m 2 0⟩
  let pitch_r := Real.arcsin (clip forward.z (-1) 1)
  let yaw_r := Real.arccos (clip (forward.x / Real.cos pitch_r) (-1) 1)
  let roll_r := Real.arcsin (clip (m 2 1 / (-1 * Real.cos pitch_r)) (-1) 1)
  { location := ⟨m 0 3, m 1 3, m 2 3⟩
    rotation := ⟨degrees pitch_r, degrees yaw_r, degrees roll_r⟩
    matrix := m
    forward_vector := forward
    inv_matrix := none
    snapshot_location := ⟨m 0 3, m 1 3, m 2 3⟩
    snapshot_rotation := ⟨degrees pitch_r, degrees yaw_r, degrees roll_r⟩ }

open Classical in
/-- Model of `Transform.get_matrix`: rebuilds the matrix and drops the
cached inverse when the stored snapshot differs from the current pose, then
returns (and memoizes, when `inverse` is requested) the matrix or its
inverse (`np.linalg.inv` modelled by the matrix inverse), paired with the
updated instance state. -/
def Transform.get_matrix (t : Transform) (inverse : Bool) :
    Matrix (Fin 4) (Fin 4) ℝ × Transform :=
  let t1 :=
    if t.snapshot_location ≠ t.location ∨ t.snapshot_rotation ≠ t.rotation then
      { t with
        snapshot_location := t.location
        snapshot_rotation := t.rotation
        matrix := Transform.create_matrix t.location t.rotation
        inv_matrix := none }
    else t
  if inverse then
    match t1.inv_matrix with
    | none => (t1.matrix⁻¹, { t1 with inv_matrix := some t1.matrix⁻¹ })
    | some m => (m, t1)
  else (t1.matrix, t1)

/-- Model of the value computed by `Transform.__transform` on one point:
the first three coordinates of `matrix · (x, y, z, 1)`. The source's final
`astype(np.float32)` narrowing has no counterpart in the exact-real model
(see claim C10). -/
def Transform.apply_matrix (m : Matrix (Fin 4) (Fin 4) ℝ) (p : Vector3D) : Vector3D :=
  ⟨m 0 0 * p.x + m 0 1 * p.y + m 0 2 * p.z + m 0 3,
   m 1 0 * p.x + m 1 1 * p.y + m 1 2 * p.z + m 1 3,
   m 2 0 * p.x + m 2 1 * p.y + m 2 2 * p.z + m 2 3⟩

/-- Model of `Transform.transform_point` (value and updated state). -/
def Transform.transform_point (t : Transform) (p : Vector3D) : Vector3D × Transform :=
  let r := t.get_matrix false
  (Transform.apply_matrix r.1 p, r.2)

/-- Model of `Transform.inverse_transform_point` (value and updated state). -/
def Transform.inverse_transform_point (t : Transform) (p : Vector3D) :
    Vector3D × Transform :=
  let r := t.get_matrix true
  (Transform.apply_matrix r.1 p, r.2)

/-- Model of `Transform.__mul__`: builds a new Transform from the product
of the two stored `matrix` attributes (read directly from the attribute,
not through `get_matrix`). -/
def Transform.mul (t other : Transform) : Transform :=
  Transform.init_from_matrix (t.matrix * other.matrix)

/-- Model of `Transform.get_angle_and_magnitude`: planar angle in radians
between the direction to the target and the forward direction implied by
yaw, together with the planar distance. -/
def Transform.get_angle_and_magnitude (t : Transform) (target_loc : Location) :
    ℝ × ℝ :=
  let target_vec := (target_loc.as_vector_2D).sub t.location.as_vector_2D
  let magnitude := target_vec.magnitude
  if magnitude > 0 then
    let forward_vector : Vector2D :=
      ⟨Real.cos (radians t.rotation.yaw), Real.sin (radians t.rotation.yaw)⟩
    (target_vec.get_angle forward_vector, magnitude)
  else (0, magnitude)

/-- Model of `Transform.is_within_distance_ahead`, including the source's
final comparison `d_angle < 90.0` of an angle in radians against 90. -/
def Transform.is_within_distance_ahead (t : Transform) (dst_loc : Location)
    (max_distance : ℝ) : Prop :=
  let am := t.get_angle_and_magnitude dst_loc
  if am.2 < 0.001 then True
  else if am.2 > max_distance then False
  else am.1 < 90

/-- Model of class `BoundingBox`. -/
structure BoundingBox where
  location : Location
  extent : Vector3D
  rotation : Rotation

/-- Model of `BoundingBox.contains`: maps the world point into the owner
transform's local frame through `inverse_transform_point`, subtracts the
box's local offset and checks each axis against the half-extent. -/
def BoundingBox.contains (b : BoundingBox) (world_point : Vector3D)
    (transform : Transform) : Prop :=
  let q := (transform.inverse_transform_point world_point).1
  let p : Vector3D := ⟨q.x - b.location.x, q.y - b.location.y, q.z - b.location.z⟩
  |p.x| ≤ b.extent.x ∧ |p.y| ≤ b.extent.y ∧ |p.z| ≤ b.extent.z

/-- Concrete Transform instance whose `location` field was mutated in place
after construction: built at the origin with zero rotation, then `location`
set to (1, 0, 0) without touching the cached matrix or the snapshots. -/
def Transform.mutated_example : Transform :=
  { Transform.init_from_pose ⟨0, 0, 0⟩ ⟨0, 0, 0⟩ with location := ⟨1, 0, 0⟩ }

/-- Claim C6: for every Rotation, `get_forward_vector`, `get_right_vector`
and `get_up_vector` equal, component for component, columns 0, 1 and 2 of
the rotation sub-block of `Transform._create_matrix(loc, r)`, for every
location `loc`. -/
theorem Rotation.basis_vectors_eq_matrix_columns (r : Rotation) (loc : Location) :
    (r.get_forward_vector.x = Transform.create_matrix loc r 0 0 ∧
     r.get_forward_vector.y = Transform.create_matrix loc r 1 0 ∧
     r.get_forward_vector.z = Transform.create_matrix loc r 2 0) ∧
    (r.get_right_vector.x = Transform.create_matrix loc r 0 1 ∧
     r.get_right_vector.y = Transform.create_matrix loc r 1 1 ∧
     r.get_right_vector.z = Transform.create_matrix loc r 2 1) ∧
    (r.get_up_vector.x = Transform.create_matrix loc r 0 2 ∧
     r.get_up_vector.y = Transform.create_matrix loc r 1 2 ∧
     r.get_up_vector.z = Transform.create_matrix loc r 2 2) := by
  refine ⟨⟨?_, ?_, ?_⟩, ⟨?_, ?_, ?_⟩, ⟨?_, ?_, ?_⟩⟩ <;>
    simp [Rotation.get_forward_vector, Rotation.get_right_vector,
      Rotation.get_up_vector, Transform.create_matrix] <;> ring

/-- Claim C7: constructing a Quaternion from an input 4-vector of norm
below 1e-50 yields the degenerate all-zero sentinel without failing; for
norm at least 1e-50 the stored components are the inputs divided by the
norm, giving a unit quaternion. -/
theorem Quaternion'.init_normalization_spec (w x y z : ℝ) :
    (Real.sqrt (w ^ 2 + x ^ 2 + y ^ 2 + z ^ 2) < 1e-50 →
      Quaternion'.init w x y z = ⟨0, 0, 0, 0⟩) ∧
    (1e-50 ≤ Real.sqrt (w ^ 2 + x ^ 2 + y ^ 2 + z ^ 2) →
      Quaternion'.init w x y z =
        ⟨w / Real.sqrt (w ^ 2 + x ^ 2 + y ^ 2 + z ^ 2),
         x / Real.sqrt (w ^ 2 + x ^ 2 + y ^ 2 + z ^ 2),
         y / Real.sqrt (w ^ 2 + x ^ 2 + y ^ 2 + z ^ 2),
         z / Real.sqrt (w ^ 2 + x ^ 2 + y ^ 2 + z ^ 2)⟩ ∧
      (Quaternion'.init w x y z).w ^ 2 + (Quaternion'.init w x y z).x ^ 2 +
        (Quaternion'.init w x y z).y ^ 2 + (Quaternion'.init w x y z).z ^ 2 = 1) := by
  constructor
  · intro h
    simp only [Quaternion'.init, if_pos h]
  · intro h
    have hn : ¬ Real.sqrt (w ^ 2 + x ^ 2 + y ^ 2 + z ^ 2) < 1e-50 := not_lt.mpr h
    have h0 : (0 : ℝ) < Real.sqrt (w ^ 2 + x ^ 2 + y ^ 2 + z ^ 2) :=
      lt_of_lt_of_le (by norm_num) h
    have hS : Real.sqrt (w ^ 2 + x ^ 2 + y ^ 2 + z ^ 2) ^ 2 =
        w ^ 2 + x ^ 2 + y ^ 2 + z ^ 2 := Real.sq_sqrt (by positivity)
    have hSpos : (0 : ℝ) < w ^ 2 + x ^ 2 + y ^ 2 + z ^ 2 := by nlinarith
    refine ⟨by simp only [Quaternion'.init, if_neg hn], ?_⟩
    simp only [Quaternion'.init, if_neg hn]
    rw [div_pow, div_pow, div_pow, div_pow, div_add_div_same, div_add_div_same,
      div_add_div_same, hS, div_self hSpos.ne']

/-- Witness for claim C7 at the all-zero input: the norm is below the
threshold and the constructor returns the degenerate sentinel. -/
theorem Quaternion'.init_normalization_spec_witness :
    Real.sqrt ((0 : ℝ) ^ 2 + 0 ^ 2 + 0 ^ 2 + 0 ^ 2) < 1e-50 ∧
    Quaternion'.init 0 0 0 0 = ⟨0, 0, 0, 0⟩ :=
  ⟨by norm_num [Real.sqrt_zero], (Quaternion'.init_normalization_spec 0 0 0 0).1
    (by norm_num [Real.sqrt_zero])⟩

/-- Claim C9 (code bug): `Vector3D.rotate` is documented as an in-plane
rotation, but the source computes `y_ = sin*x - cos*y`, so rotating by 0
degrees does not return the original vector: it negates the y component. -/
theorem Vector3D.rotate_zero_not_identity :
    Vector3D.rotate ⟨0, 1, 0⟩ 0 = ⟨0, -1, 0⟩ ∧
    (⟨0, -1, 0⟩ : Vector3D) ≠ ⟨0, 1, 0⟩ := by
  constructor
  · simp [Vector3D.rotate, radians]
  · intro h
    rw [Vector3D.mk.injEq] at h
    norm_num at h

/-- Claim C8: `BoundingBox.contains` is the axis-aligned half-extent check
on the world point mapped through the owner transform's inverse and shifted
by the box's local offset, and the result is independent of the box's own
`rotation` field. -/
theorem BoundingBox.contains_spec (b : BoundingBox) (p : Vector3D) (t : Transform) :
    (b.contains p t ↔
      (|(t.inverse_transform_point p).1.x - b.location.x| ≤ b.extent.x ∧
       |(t.inverse_transform_point p).1.y - b.location.y| ≤ b.extent.y ∧
       |(t.inverse_transform_point p).1.z - b.location.z| ≤ b.extent.z)) ∧
    (∀ r : Rotation,
      BoundingBox.contains ⟨b.location, b.extent, r⟩ p t ↔ b.contains p t) :=
  ⟨Iff.rfl, fun _ => Iff.rfl⟩

/-- Claim C4: `Quaternion.as_rotation` branches three ways on
`singularity_test = z*x - w*y`: below -0.4999995 the pitch is exactly -90,
above 0.4999995 it is exactly +90, with the fallback atan2 yaw/roll
formulas in both singular branches; otherwise pitch is
`arcsin(2*singularity_test)` with the general-case formulas. The function
is total; on the degenerate zero sentinel it returns Rotation(0, 0, 0). -/
theorem Quaternion'.as_rotation_branch_spec (q : Quaternion') :
    (q.z * q.x - q.w * q.y < -(0.4999995 : ℝ) →
      q.as_rotation =
        ⟨-90,
         arctan2 (2 * (q.w * q.z + q.x * q.y)) (1 - 2 * (q.y ^ 2 + q.z ^ 2)) *
           RAD_TO_DEG,
         -(arctan2 (2 * (q.w * q.z + q.x * q.y)) (1 - 2 * (q.y ^ 2 + q.z ^ 2)) *
           RAD_TO_DEG) - 2 * arctan2 q.x q.w * RAD_TO_DEG⟩) ∧
    (q.z * q.x - q.w * q.y > (0.4999995 : ℝ) →
      q.as_rotation =
        ⟨90,
         arctan2 (2 * (q.w * q.z + q.x * q.y)) (1 - 2 * (q.y ^ 2 + q.z ^ 2)) *
           RAD_TO_DEG,
         arctan2 (2 * (q.w * q.z + q.x * q.y)) (1 - 2 * (q.y ^ 2 + q.z ^ 2)) *
           RAD_TO_DEG - 2 * arctan2 q.x q.w * RAD_TO_DEG⟩) ∧
    (-(0.4999995 : ℝ) ≤ q.z * q.x - q.w * q.y →
      q.z * q.x - q.w * q.y ≤ (0.4999995 : ℝ) →
      q.as_rotation =
        ⟨Real.arcsin (2 * (q.z * q.x - q.w * q.y)) * RAD_TO_DEG,
         arctan2 (2 * (q.w * q.z + q.x * q.y)) (1 - 2 * (q.y ^ 2 + q.z ^ 2)) *
           RAD_TO_DEG,
         arctan2 (-(2 * (q.w * q.x + q.y * q.z))) (1 - 2 * (q.x ^ 2 + q.y ^ 2)) *
           RAD_TO_DEG⟩) ∧
    Quaternion'.as_rotation (Quaternion'.init 0 0 0 0) = ⟨0, 0, 0⟩ := by
  refine ⟨?_, ?_, ?_, ?_⟩
  · intro h
    simp only [Quaternion'.as_rotation, if_pos h]
  · intro h
    simp only [Quaternion'.as_rotation, if_neg (by linarith : ¬ q.z * q.x - q.w * q.y <
      -(0.4999995 : ℝ)), if_pos h]
  · intro h1 h2
    simp only [Quaternion'.as_rotation, if_neg (not_lt.mpr h1), if_neg (not_lt.mpr h2)]
  · have hinit : Quaternion'.init 0 0 0 0 = ⟨0, 0, 0, 0⟩ := by
      simp only [Quaternion'.init]
      norm_num [Real.sqrt_zero]
    rw [hinit]
    simp only [Quaternion'.as_rotation]
    norm_num [arctan2, Real.arctan_zero, Real.arcsin_zero]

/-- Witness for claim C4 at a concrete quaternion in the north-pole
singular branch. -/
theorem Quaternion'.as_rotation_branch_spec_witness :
    ((1 : ℝ) * 1 - 0 * 0 > (0.4999995 : ℝ)) ∧
    Quaternion'.as_rotation ⟨0, 1, 0, 1⟩ =
      ⟨90,
       arctan2 (2 * ((0 : ℝ) * 1 + 1 * 0)) (1 - 2 * ((0 : ℝ) ^ 2 + 1 ^ 2)) *
         RAD_TO_DEG,
       arctan2 (2 * ((0 : ℝ) * 1 + 1 * 0)) (1 - 2 * ((0 : ℝ) ^ 2 + 1 ^ 2)) *
         RAD_TO_DEG - 2 * arctan2 1 0 * RAD_TO_DEG⟩ :=
  ⟨by norm_num, (Quaternion'.as_rotation_branch_spec ⟨0, 1, 0, 1⟩).2.1 (by norm_num)⟩

/-- Claim C1: when location or rotation differ from the stored snapshot,
`get_matrix` returns the matrix rebuilt from the current pose and discards
the cached inverse, so a following `get_matrix(inverse=True)` returns the
inverse of the rebuilt matrix; when they are unchanged, the stored matrix
and state are returned as-is. -/
theorem Transform.get_matrix_lazy_rebuild (t : Transform) :
    (t.snapshot_location ≠ t.location ∨ t.snapshot_rotation ≠ t.rotation →
      (t.get_matrix false).1 = Transform.create_matrix t.location t.rotation ∧
      (t.get_matrix false).2.inv_matrix = none ∧
      ((t.get_matrix false).2.get_matrix true).1 =
        (Transform.create_matrix t.location t.rotation)⁻¹) ∧
    (t.snapshot_location = t.location → t.snapshot_rotation = t.rotation →
      (t.get_matrix false).1 = t.matrix ∧ (t.get_matrix false).2 = t) := by
  constructor
  · intro h
    have e1 : t.get_matrix false =
        (Transform.create_matrix t.location t.rotation,
         { t with snapshot_location := t.location, snapshot_rotation := t.rotation,
                  matrix := Transform.create_matrix t.location t.rotation,
                  inv_matrix := none }) := by
      simp [Transform.get_matrix, if_pos h]
    rw [e1]
    refine ⟨rfl, rfl, ?_⟩
    have hc2 : ¬ (t.location ≠ t.location ∨ t.rotation ≠ t.rotation) := by simp
    simp [Transform.get_matrix, hc2]
  · intro h1 h2
    have hc : ¬ (t.snapshot_location ≠ t.location ∨ t.snapshot_rotation ≠ t.rotation) := by
      simp [h1, h2]
    constructor <;> simp [Transform.get_matrix, hc]

/-- Witness for claim C1 at a concrete mutated instance: the snapshot
disagrees with the current location, and `get_matrix` returns the matrix
rebuilt from the mutated pose. -/
theorem Transform.get_matrix_lazy_rebuild_witness :
    Transform.mutated_example.snapshot_location ≠ Transform.mutated_example.location ∧
    (Transform.mutated_example.get_matrix false).1 =
      Transform.create_matrix ⟨1, 0, 0⟩ ⟨0, 0, 0⟩ :=
  ⟨by simp [Transform.mutated_example, Transform.init_from_pose],
   ((Transform.get_matrix_lazy_rebuild Transform.mutated_example).1
     (Or.inl (by simp [Transform.mutated_example, Transform.init_from_pose]))).1⟩

/-- Helper: the matrix built from the origin pose with zero rotation is the
identity matrix. -/
theorem Transform.create_matrix_zero_pose :
    Transform.create_matrix ⟨0, 0, 0⟩ ⟨0, 0, 0⟩ = 1 := by
  ext i j
  fin_cases i <;> fin_cases j <;>
    simp [Transform.create_matrix, radians, Matrix.one_apply, Matrix.vecHead,
      Matrix.vecTail]

/-- Counterexample to claim C2: `Transform.__mul__` reads the stored
`matrix` attributes without resolving staleness, so composing a transform
whose location was mutated after construction does not equal the Transform
built from the product of the matrices of the operands' current poses. -/
theorem Transform.mul_stale_counterexample :
    Transform.mul Transform.mutated_example
        (Transform.init_from_pose ⟨0, 0, 0⟩ ⟨0, 0, 0⟩) ≠
      Transform.init_from_matrix
        (Transform.create_matrix Transform.mutated_example.location
            Transform.mutated_example.rotation *
          Transform.create_matrix ⟨0, 0, 0⟩ ⟨0, 0, 0⟩) := by
  intro h
  have hm := congrArg Transform.matrix h
  have hL : (Transform.mul Transform.mutated_example
      (Transform.init_from_pose ⟨0, 0, 0⟩ ⟨0, 0, 0⟩)).matrix =
      Transform.create_matrix ⟨0, 0, 0⟩ ⟨0, 0, 0⟩ *
        Transform.create_matrix ⟨0, 0, 0⟩ ⟨0, 0, 0⟩ := rfl
  have hR : (Transform.init_from_matrix
      (Transform.create_matrix Transform.mutated_example.location
          Transform.mutated_example.rotation *
        Transform.create_matrix ⟨0, 0, 0⟩ ⟨0, 0, 0⟩)).matrix =
      Transform.create_matrix ⟨1, 0, 0⟩ ⟨0, 0, 0⟩ *
        Transform.create_matrix ⟨0, 0, 0⟩ ⟨0, 0, 0⟩ := rfl
  rw [hL, hR, Transform.create_matrix_zero_pose, mul_one, mul_one] at hm
  have he := congrFun (congrFun hm 0) 3
  rw [Matrix.one_apply_ne (by decide : (0 : Fin 4) ≠ 3)] at he
  simp [Transform.create_matrix] at he

/-- Claim C2 (amended): composition reads the stored `matrix` attributes of
both operands directly; hence for freshly built (unmutated) operands it
equals the Transform built from the product of the matrices of the
operands' current location and rotation. -/
theorem Transform.mul_uses_stored_matrices :
    (∀ t u : Transform,
      Transform.mul t u = Transform.init_from_matrix (t.matrix * u.matrix)) ∧
    (∀ (l l' : Location) (r r' : Rotation),
      Transform.mul (Transform.init_from_pose l r) (Transform.init_from_pose l' r') =
        Transform.init_from_matrix
          (Transform.create_matrix l r * Transform.create_matrix l' r')) :=
  ⟨fun _ _ => rfl, fun _ _ _ _ => rfl⟩

/-- Helper: `arctan2 0 x = 0` for positive `x`. -/
theorem arctan2_zero_pos {x : ℝ} (hx : 0 < x) : arctan2 0 x = 0 := by
  simp only [arctan2, if_pos hx, zero_div, Real.arctan_zero]

/-- Helper: `arctan2 0 x = π` for negative `x`. -/
theorem arctan2_zero_neg {x : ℝ} (hx : x < 0) : arctan2 0 x = Real.pi := by
  simp only [arctan2, if_neg (by linarith : ¬ (0 : ℝ) < x), if_pos hx,
    if_pos (le_refl (0 : ℝ)), zero_div, Real.arctan_zero, zero_add]

/-- Claim C5 (code bug): in `is_within_distance_ahead` the final test
compares the relative angle, which `get_angle_and_magnitude` returns in
radians in `[-π, π]`, against the literal `90.0`, so it always passes. A
target 50 units directly behind the transform with `max_distance = 100` is
therefore reported as within-distance-ahead, where the documented behavior
(forward half-plane test) requires the result to be false. -/
theorem Transform.is_within_distance_ahead_behind_true :
    Transform.is_within_distance_ahead
      (Transform.init_from_pose ⟨0, 0, 0⟩ ⟨0, 0, 0⟩) ⟨-50, 0, 0⟩ 100 := by
  have hpi4 := Real.pi_le_four
  have hpi0 := Real.pi_pos
  have hv : (Vector3D.as_vector_2D ⟨-50, 0, 0⟩).sub
      (Vector3D.as_vector_2D (Transform.init_from_pose ⟨0, 0, 0⟩ ⟨0, 0, 0⟩).location) =
      ⟨-50, 0⟩ := by
    simp only [Vector3D.as_vector_2D, Vector2D.sub, Transform.init_from_pose]
    norm_num
  have hmag : Vector2D.magnitude ⟨(-50 : ℝ), 0⟩ = 50 := by
    simp only [Vector2D.magnitude]
    rw [show ((-50 : ℝ)) ^ 2 + (0 : ℝ) ^ 2 = 50 ^ 2 by norm_num]
    exact Real.sqrt_sq (by norm_num)
  have hang : Vector2D.get_angle ⟨(-50 : ℝ), 0⟩
      ⟨Real.cos (radians (Transform.init_from_pose ⟨0, 0, 0⟩ ⟨0, 0, 0⟩).rotation.yaw),
       Real.sin (radians (Transform.init_from_pose ⟨0, 0, 0⟩ ⟨0, 0, 0⟩).rotation.yaw)⟩ =
      Real.pi := by
    have h0 : radians (Transform.init_from_pose ⟨0, 0, 0⟩ ⟨0, 0, 0⟩).rotation.yaw = 0 := by
      simp [radians, Transform.init_from_pose]
    rw [h0, Real.cos_zero, Real.sin_zero]
    simp only [Vector2D.get_angle]
    rw [arctan2_zero_neg (by norm_num : ((-50 : ℝ)) < 0),
      arctan2_zero_pos (by norm_num : (0 : ℝ) < 1), sub_zero,
      if_neg (lt_irrefl Real.pi), if_neg (by linarith : ¬ Real.pi < -Real.pi)]
  have hgam : Transform.get_angle_and_magnitude
      (Transform.init_from_pose ⟨0, 0, 0⟩ ⟨0, 0, 0⟩) ⟨-50, 0, 0⟩ = (Real.pi, 50) := by
    simp only [Transform.get_angle_and_magnitude, hv, hmag]
    rw [if_pos (by norm_num : (50 : ℝ) > 0), hang]
  simp only [Transform.is_within_distance_ahead, hgam]
  rw [if_neg (by norm_num : ¬ (50 : ℝ) < 0.001), if_neg (by norm_num : ¬ (50 : ℝ) > 100)]
  linarith

/-- Helper: `arctan2` is invariant under scaling both arguments by a
positive factor. -/
theorem arctan2_pos_mul {c : ℝ} (hc : 0 < c) (y x : ℝ) :
    arctan2 (c * y) (c * x) = arctan2 y x := by
  have hdiv : c * y / (c * x) = y / x := mul_div_mul_left y x (ne_of_gt hc)
  unfold arctan2
  split_ifs
  all_goals try rw [hdiv]
  all_goals first
    | rfl
    | (exfalso; nlinarith)

/-- Helper: on the principal interval `(-π, π]`, `arctan2` recovers the
angle from its sine and cosine. -/
theorem arctan2_sin_cos {θ : ℝ} (h1 : -Real.pi < θ) (h2 : θ ≤ Real.pi) :
    arctan2 (Real.sin θ) (Real.cos θ) = θ := by
  have hπ := Real.pi_pos
  rcases lt_trichotomy (Real.cos θ) 0 with hc | hc | hc
  · by_cases hs : 0 ≤ Real.sin θ
    · have hθ1 : Real.pi / 2 < θ := by
        by_contra hcon
        push_neg at hcon
        rcases le_or_lt θ (-(Real.pi / 2)) with hθ | hθ
        · have : Real.sin θ < 0 :=
            Real.sin_neg_of_neg_of_neg_pi_lt (by nlinarith) h1
          linarith
        · have : 0 ≤ Real.cos θ := Real.cos_nonneg_of_mem_Icc ⟨hθ.le, hcon⟩
          linarith
      have harc : Real.arctan (Real.sin θ / Real.cos θ) = θ - Real.pi := by
        rw [← Real.tan_eq_sin_div_cos, ← Real.tan_sub_pi]
        exact Real.arctan_tan (by linarith) (by linarith)
      simp only [arctan2, if_neg (by linarith : ¬ (0 : ℝ) < Real.cos θ), if_pos hc,
        if_pos hs, harc]
      ring
    · push_neg at hs
      have hθ1 : θ < -(Real.pi / 2) := by
        by_contra hcon
        push_neg at hcon
        rcases le_or_lt θ (Real.pi / 2) with hθ | hθ
        · have : 0 ≤ Real.cos θ := Real.cos_nonneg_of_mem_Icc ⟨hcon, hθ⟩
          linarith
        · have : 0 ≤ Real.sin θ :=
            Real.sin_nonneg_of_nonneg_of_le_pi (by linarith) h2
          linarith
      have harc : Real.arctan (Real.sin θ / Real.cos θ) = θ + Real.pi := by
        rw [← Real.tan_eq_sin_div_cos, ← Real.tan_add_pi]
        exact Real.arctan_tan (by linarith) (by linarith)
      simp only [arctan2, if_neg (by linarith : ¬ (0 : ℝ) < Real.cos θ), if_pos hc,
        if_neg (not_le.mpr hs), harc]
      ring
  · obtain ⟨k, hk⟩ := Real.cos_eq_zero_iff.mp hc
    have hkb : k = 0 ∨ k = -1 := by
      have hlow : -Real.pi < (2 * (k : ℝ) + 1) * Real.pi / 2 := hk ▸ h1
      have hhigh : (2 * (k : ℝ) + 1) * Real.pi / 2 ≤ Real.pi := hk ▸ h2
      have hk1 : (-2 : ℝ) < 2 * (k : ℝ) + 1 := by nlinarith
      have hk2 : 2 * (k : ℝ) + 1 ≤ 2 := by nlinarith
      have hk1' : (-2 : ℤ) < 2 * k + 1 := by exact_mod_cast hk1
      have hk2' : 2 * k + 1 ≤ (2 : ℤ) := by exact_mod_cast hk2
      omega
    rcases hkb with rfl | rfl
    · have hθ : θ = Real.pi / 2 := by rw [hk]; push_cast; ring
      subst hθ
      rw [Real.sin_pi_div_two, Real.cos_pi_div_two]
      simp only [arctan2, if_neg (lt_irrefl (0 : ℝ)),
        if_pos (by norm_num : (0 : ℝ) < 1)]
    · have hθ : θ = -(Real.pi / 2) := by rw [hk]; push_cast; ring
      subst hθ
      rw [Real.sin_neg, Real.cos_neg, Real.sin_pi_div_two, Real.cos_pi_div_two]
      simp only [arctan2, if_neg (lt_irrefl (0 : ℝ)),
        if_neg (by norm_num : ¬ (0 : ℝ) < -1), if_pos (by norm_num : (-1 : ℝ) < 0)]
  · have hθ1 : -(Real.pi / 2) < θ := by
      by_contra hcon
      push_neg at hcon
      have hcn : Real.cos (-θ) ≤ 0 :=
        Real.cos_nonpos_of_pi_div_two_le_of_le (by linarith) (by linarith)
      rw [Real.cos_neg] at hcn
      linarith
    have hθ2 : θ < Real.pi / 2 := by
      by_contra hcon
      push_neg at hcon
      have hcn : Real.cos θ ≤ 0 :=
        Real.cos_nonpos_of_pi_div_two_le_of_le hcon (by linarith)
      linarith
    simp only [arctan2, if_pos hc, ← Real.tan_eq_sin_div_cos]
    exact Real.arctan_tan hθ1 hθ2

/-- Helper: for an arbitrary angle, `arctan2` of its sine and cosine
recovers the angle up to a multiple of `2π`. -/
theorem arctan2_sin_cos_mod (y : ℝ) :
    ∃ k : ℤ, arctan2 (Real.sin y) (Real.cos y) = y - 2 * Real.pi * k := by
  have hπ := Real.pi_pos
  have hp : (0 : ℝ) < 2 * Real.pi := by linarith
  have hmem := Set.mem_Ioc.mp (toIocMod_mem_Ioc hp (-Real.pi) y)
  have hsub : y - toIocMod hp (-Real.pi) y = toIocDiv hp (-Real.pi) y • (2 * Real.pi) :=
    self_sub_toIocMod hp (-Real.pi) y
  rw [zsmul_eq_mul] at hsub
  refine ⟨toIocDiv hp (-Real.pi) y, ?_⟩
  have hθeq : toIocMod hp (-Real.pi) y =
      y - 2 * Real.pi * (toIocDiv hp (-Real.pi) y : ℝ) := by linarith
  have hsin : Real.sin (toIocMod hp (-Real.pi) y) = Real.sin y := by
    rw [hθeq]
    have := Real.sin_periodic.sub_zsmul_eq (x := y) (toIocDiv hp (-Real.pi) y)
    rw [zsmul_eq_mul] at this
    rw [show y - 2 * Real.pi * (toIocDiv hp (-Real.pi) y : ℝ) =
      y - (toIocDiv hp (-Real.pi) y : ℝ) * (2 * Real.pi) by ring]
    exact this
  have hcos : Real.cos (toIocMod hp (-Real.pi) y) = Real.cos y := by
    rw [hθeq]
    have := Real.cos_periodic.sub_zsmul_eq (x := y) (toIocDiv hp (-Real.pi) y)
    rw [zsmul_eq_mul] at this
    rw [show y - 2 * Real.pi * (toIocDiv hp (-Real.pi) y : ℝ) =
      y - (toIocDiv hp (-Real.pi) y : ℝ) * (2 * Real.pi) by ring]
    exact this
  rw [← hsin, ← hcos, arctan2_sin_cos hmem.1 (by linarith [hmem.2]), hθeq]

/-- Helper: the half-angle quaternion components produced by
`from_rotation` have unit norm whenever the three half-angle sine/cosine
pairs lie on the unit circle. -/
theorem euler_quat_norm_sq (cr sr cp sp cy sy : ℝ)
    (hr : sr ^ 2 + cr ^ 2 = 1) (hp : sp ^ 2 + cp ^ 2 = 1) (hy : sy ^ 2 + cy ^ 2 = 1) :
    (cr * cp * cy + sr * sp * sy) ^ 2 + (cr * sp * sy - sr * cp * cy) ^ 2 +
      (-cr * sp * cy - sr * cp * sy) ^ 2 + (cr * cp * sy - sr * sp * cy) ^ 2 = 1 := by
  linear_combination ((cp ^ 2 + sp ^ 2) * (cy ^ 2 + sy ^ 2)) * hr +
    (cy ^ 2 + sy ^ 2) * hp + hy

/-- Helper: `z*x - w*y` of the half-angle components equals `sp*cp`. -/
theorem euler_singularity_eq (cr sr cp sp cy sy : ℝ)
    (hr : sr ^ 2 + cr ^ 2 = 1) (hy : sy ^ 2 + cy ^ 2 = 1) :
    (cr * cp * sy - sr * sp * cy) * (cr * sp * sy - sr * cp * cy) -
      (cr * cp * cy + sr * sp * sy) * (-cr * sp * cy - sr * cp * sy) = sp * cp := by
  linear_combination (cp * sp * (sy ^ 2 + cy ^ 2)) * hr + cp * sp * hy

/-- Helper: `2*(w*z + x*y)` of the half-angle components equals
`2*sy*cy*(cp^2 - sp^2)`. -/
theorem euler_yaw_y_eq (cr sr cp sp cy sy : ℝ)
    (hr : sr ^ 2 + cr ^ 2 = 1) :
    2 * ((cr * cp * cy + sr * sp * sy) * (cr * cp * sy - sr * sp * cy) +
      (cr * sp * sy - sr * cp * cy) * (-cr * sp * cy - sr * cp * sy)) =
      2 * sy * cy * (cp ^ 2 - sp ^ 2) := by
  linear_combination (2 * sy * cy * (cp ^ 2 - sp ^ 2)) * hr

/-- Helper: `1 - 2*(y^2 + z^2)` of the half-angle components equals
`(cp^2 - sp^2)*(cy^2 - sy^2)`. -/
theorem euler_yaw_x_eq (cr sr cp sp cy sy : ℝ)
    (hr : sr ^ 2 + cr ^ 2 = 1) (hp : sp ^ 2 + cp ^ 2 = 1) (hy : sy ^ 2 + cy ^ 2 = 1) :
    1 - 2 * ((-cr * sp * cy - sr * cp * sy) ^ 2 + (cr * cp * sy - sr * sp * cy) ^ 2) =
      (cp ^ 2 - sp ^ 2) * (cy ^ 2 - sy ^ 2) := by
  linear_combination (-2 * (sp ^ 2 * cy ^ 2 + cp ^ 2 * sy ^ 2)) * hr +
    (-(cy ^ 2 + sy ^ 2)) * hp + (-1 : ℝ) * hy

/-- Helper: `-(2*(w*x + y*z))` of the half-angle components equals
`2*sr*cr*(cp^2 - sp^2)`. -/
theorem euler_roll_y_eq (cr sr cp sp cy sy : ℝ)
    (hy : sy ^ 2 + cy ^ 2 = 1) :
    -(2 * ((cr * cp * cy + sr * sp * sy) * (cr * sp * sy - sr * cp * cy) +
      (-cr * sp * cy - sr * cp * sy) * (cr * cp * sy - sr * sp * cy))) =
      2 * sr * cr * (cp ^ 2 - sp ^ 2) := by
  linear_combination (2 * sr * cr * (cp ^ 2 - sp ^ 2)) * hy

/-- Helper: `1 - 2*(x^2 + y^2)` of the half-angle components equals
`(cr^2 - sr^2)*(cp^2 - sp^2)`. -/
theorem euler_roll_x_eq (cr sr cp sp cy sy : ℝ)
    (hr : sr ^ 2 + cr ^ 2 = 1) (hp : sp ^ 2 + cp ^ 2 = 1) (hy : sy ^ 2 + cy ^ 2 = 1) :
    1 - 2 * ((cr * sp * sy - sr * cp * cy) ^ 2 + (-cr * sp * cy - sr * cp * sy) ^ 2) =
      (cr ^ 2 - sr ^ 2) * (cp ^ 2 - sp ^ 2) := by
  linear_combination (-2 * (cr ^ 2 * sp ^ 2 + sr ^ 2 * cp ^ 2)) * hy +
    (-(cp ^ 2 + sp ^ 2)) * hr + (-1 : ℝ) * hp

/-- Helper: `Quaternion.__init__` leaves a unit 4-vector unchanged. -/
theorem Quaternion'.init_of_unit {w x y z : ℝ} (h : w ^ 2 + x ^ 2 + y ^ 2 + z ^ 2 = 1) :
    Quaternion'.init w x y z = ⟨w, x, y, z⟩ := by
  simp only [Quaternion'.init, h, Real.sqrt_one]
  rw [if_neg (by norm_num)]
  norm_num

/-- Helper: evaluation of `as_rotation` on explicit components in the
regular (non-singular) branch, with the intermediate quantities abstracted
by equations. -/
theorem Quaternion'.as_rotation_mk_eval (w x y z s a b c d : ℝ)
    (hs : z * x - w * y = s)
    (ha : 2 * (w * z + x * y) = a) (hb : 1 - 2 * (y ^ 2 + z ^ 2) = b)
    (hc : -(2 * (w * x + y * z)) = c) (hd : 1 - 2 * (x ^ 2 + y ^ 2) = d)
    (hlo : -(0.4999995 : ℝ) ≤ s) (hhi : s ≤ (0.4999995 : ℝ)) :
    Quaternion'.as_rotation ⟨w, x, y, z⟩ =
      ⟨Real.arcsin (2 * s) * RAD_TO_DEG, arctan2 a b * RAD_TO_DEG,
       arctan2 c d * RAD_TO_DEG⟩ := by
  subst hs ha hb hc hd
  simp only [Quaternion'.as_rotation]
  rw [if_neg (not_lt.mpr hlo), if_neg (not_lt.mpr hhi)]

/-- Helper: on the half-angle quaternion of Euler angles `(P, Y, R)` in
radians with `P` strictly inside `(-π/2, π/2)` and outside the singularity
band, `as_rotation` recovers `P` exactly and `Y`, `R` up to multiples of
`2π`, all scaled to degrees. -/
theorem Quaternion'.as_rotation_halfangle_mk (P Y R : ℝ)
    (hP1 : -(Real.pi / 2) < P) (hP2 : P < Real.pi / 2)
    (hband : |Real.sin P| ≤ 0.999999) :
    ∃ k j : ℤ,
      Quaternion'.as_rotation
        ⟨Real.cos (R / 2) * Real.cos (P / 2) * Real.cos (Y / 2) +
           Real.sin (R / 2) * Real.sin (P / 2) * Real.sin (Y / 2),
         Real.cos (R / 2) * Real.sin (P / 2) * Real.sin (Y / 2) -
           Real.sin (R / 2) * Real.cos (P / 2) * Real.cos (Y / 2),
         -Real.cos (R / 2) * Real.sin (P / 2) * Real.cos (Y / 2) -
           Real.sin (R / 2) * Real.cos (P / 2) * Real.sin (Y / 2),
         Real.cos (R / 2) * Real.cos (P / 2) * Real.sin (Y / 2) -
           Real.sin (R / 2) * Real.sin (P / 2) * Real.cos (Y / 2)⟩ =
      ⟨P * RAD_TO_DEG, (Y - 2 * Real.pi * k) * RAD_TO_DEG,
       (R - 2 * Real.pi * j) * RAD_TO_DEG⟩ := by
  have hπ := Real.pi_pos
  have hr := Real.sin_sq_add_cos_sq (R / 2)
  have hp := Real.sin_sq_add_cos_sq (P / 2)
  have hy := Real.sin_sq_add_cos_sq (Y / 2)
  have habs := abs_le.mp hband
  have hcP : 0 < Real.cos P := Real.cos_pos_of_mem_Ioo ⟨hP1, hP2⟩
  have hsinP : Real.sin P = 2 * Real.sin (P / 2) * Real.cos (P / 2) := by
    have h := Real.sin_two_mul (P / 2)
    rw [show 2 * (P / 2) = P by ring] at h
    exact h
  have hcosP : Real.cos P = Real.cos (P / 2) ^ 2 - Real.sin (P / 2) ^ 2 := by
    have h := Real.cos_two_mul' (P / 2)
    rw [show 2 * (P / 2) = P by ring] at h
    exact h
  have hsinY : Real.sin Y = 2 * Real.sin (Y / 2) * Real.cos (Y / 2) := by
    have h := Real.sin_two_mul (Y / 2)
    rw [show 2 * (Y / 2) = Y by ring] at h
    exact h
  have hcosY : Real.cos Y = Real.cos (Y / 2) ^ 2 - Real.sin (Y / 2) ^ 2 := by
    have h := Real.cos_two_mul' (Y / 2)
    rw [show 2 * (Y / 2) = Y by ring] at h
    exact h
  have hsinR : Real.sin R = 2 * Real.sin (R / 2) * Real.cos (R / 2) := by
    have h := Real.sin_two_mul (R / 2)
    rw [show 2 * (R / 2) = R by ring] at h
    exact h
  have hcosR : Real.cos R = Real.cos (R / 2) ^ 2 - Real.sin (R / 2) ^ 2 := by
    have h := Real.cos_two_mul' (R / 2)
    rw [show 2 * (R / 2) = R by ring] at h
    exact h
  have hst := (euler_singularity_eq (Real.cos (R / 2)) (Real.sin (R / 2))
    (Real.cos (P / 2)) (Real.sin (P / 2)) (Real.cos (Y / 2)) (Real.sin (Y / 2))
    hr hy).trans
    (show Real.sin (P / 2) * Real.cos (P / 2) = Real.sin P / 2 by rw [hsinP]; ring)
  have hyy := (euler_yaw_y_eq (Real.cos (R / 2)) (Real.sin (R / 2))
    (Real.cos (P / 2)) (Real.sin (P / 2)) (Real.cos (Y / 2)) (Real.sin (Y / 2))
    hr).trans
    (show 2 * Real.sin (Y / 2) * Real.cos (Y / 2) *
        (Real.cos (P / 2) ^ 2 - Real.sin (P / 2) ^ 2) =
        Real.cos P * Real.sin Y by rw [hsinY, hcosP]; ring)
  have hyx := (euler_yaw_x_eq (Real.cos (R / 2)) (Real.sin (R / 2))
    (Real.cos (P / 2)) (Real.sin (P / 2)) (Real.cos (Y / 2)) (Real.sin (Y / 2))
    hr hp hy).trans
    (show (Real.cos (P / 2) ^ 2 - Real.sin (P / 2) ^ 2) *
        (Real.cos (Y / 2) ^ 2 - Real.sin (Y / 2) ^ 2) =
        Real.cos P * Real.cos Y by rw [hcosY, hcosP])
  have hrly := (euler_roll_y_eq (Real.cos (R / 2)) (Real.sin (R / 2))
    (Real.cos (P / 2)) (Real.sin (P / 2)) (Real.cos (Y / 2)) (Real.sin (Y / 2))
    hy).trans
    (show 2 * Real.sin (R / 2) * Real.cos (R / 2) *
        (Real.cos (P / 2) ^ 2 - Real.sin (P / 2) ^ 2) =
        Real.cos P * Real.sin R by rw [hsinR, hcosP]; ring)
  have hrlx := (euler_roll_x_eq (Real.cos (R / 2)) (Real.sin (R / 2))
    (Real.cos (P / 2)) (Real.sin (P / 2)) (Real.cos (Y / 2)) (Real.sin (Y / 2))
    hr hp hy).trans
    (show (Real.cos (R / 2) ^ 2 - Real.sin (R / 2) ^ 2) *
        (Real.cos (P / 2) ^ 2 - Real.sin (P / 2) ^ 2) =
        Real.cos P * Real.cos R by rw [hcosR, hcosP]; ring)
  have hlo : -(0.4999995 : ℝ) ≤ Real.sin P / 2 := by linarith
  have hhi : Real.sin P / 2 ≤ (0.4999995 : ℝ) := by linarith
  obtain ⟨k, hk⟩ := arctan2_sin_cos_mod Y
  obtain ⟨j, hj⟩ := arctan2_sin_cos_mod R
  refine ⟨k, j, ?_⟩
  rw [Quaternion'.as_rotation_mk_eval _ _ _ _ _ _ _ _ _ hst hyy hyx hrly hrlx hlo hhi]
  rw [Rotation.mk.injEq]
  refine ⟨?_, ?_, ?_⟩
  · rw [show (2 : ℝ) * (Real.sin P / 2) = Real.sin P by ring,
      Real.arcsin_sin (by linarith) (by linarith)]
  · rw [arctan2_pos_mul hcP (Real.sin Y) (Real.cos Y), hk]
  · rw [arctan2_pos_mul hcP (Real.sin R) (Real.cos R), hj]

/-- Claim C3: for a Rotation with pitch strictly between -90 and 90 degrees
and outside the singularity band (|sin(pitch)| at most 0.999999, i.e. the
arcsin branch of `as_rotation` applies), the quaternion round-trip
`from_rotation` then `as_rotation` reproduces the pitch exactly and the yaw
and roll up to integer multiples of 360 degrees. -/
theorem Quaternion'.from_rotation_as_rotation_roundtrip
    (pitch yaw roll : ℝ) (h1 : -90 < pitch) (h2 : pitch < 90)
    (h3 : |Real.sin (radians pitch)| ≤ 0.999999) :
    (Quaternion'.as_rotation (Quaternion'.from_rotation ⟨pitch, yaw, roll⟩)).pitch =
      pitch ∧
    (∃ k : ℤ,
      (Quaternion'.as_rotation (Quaternion'.from_rotation ⟨pitch, yaw, roll⟩)).yaw =
        yaw - 360 * k) ∧
    (∃ j : ℤ,
      (Quaternion'.as_rotation (Quaternion'.from_rotation ⟨pitch, yaw, roll⟩)).roll =
        roll - 360 * j) := by
  have hπ := Real.pi_pos
  have hπne : Real.pi ≠ 0 := Real.pi_ne_zero
  have hP1 : -(Real.pi / 2) < radians pitch := by
    simp only [radians]
    nlinarith
  have hP2 : radians pitch < Real.pi / 2 := by
    simp only [radians]
    nlinarith
  have hr := Real.sin_sq_add_cos_sq (radians roll / 2)
  have hp := Real.sin_sq_add_cos_sq (radians pitch / 2)
  have hy := Real.sin_sq_add_cos_sq (radians yaw / 2)
  have hq : Quaternion'.from_rotation ⟨pitch, yaw, roll⟩ =
      ⟨Real.cos (radians roll / 2) * Real.cos (radians pitch / 2) *
          Real.cos (radians yaw / 2) +
         Real.sin (radians roll / 2) * Real.sin (radians pitch / 2) *
          Real.sin (radians yaw / 2),
       Real.cos (radians roll / 2) * Real.sin (radians pitch / 2) *
          Real.sin (radians yaw / 2) -
         Real.sin (radians roll / 2) * Real.cos (radians pitch / 2) *
          Real.cos (radians yaw / 2),
       -Real.cos (radians roll / 2) * Real.sin (radians pitch / 2) *
          Real.cos (radians yaw / 2) -
         Real.sin (radians roll / 2) * Real.cos (radians pitch / 2) *
          Real.sin (radians yaw / 2),
       Real.cos (radians roll / 2) * Real.cos (radians pitch / 2) *
          Real.sin (radians yaw / 2) -
         Real.sin (radians roll / 2) * Real.sin (radians pitch / 2) *
          Real.cos (radians yaw / 2)⟩ := by
    simp only [Quaternion'.from_rotation]
    exact Quaternion'.init_of_unit (euler_quat_norm_sq _ _ _ _ _ _ hr hp hy)
  obtain ⟨k, j, hrot⟩ := Quaternion'.as_rotation_halfangle_mk (radians pitch)
    (radians yaw) (radians roll) hP1 hP2 h3
  rw [hq, hrot]
  refine ⟨?_, ⟨k, ?_⟩, ⟨j, ?_⟩⟩
  · show radians pitch * RAD_TO_DEG = pitch
    simp only [radians, RAD_TO_DEG]
    field_simp
  · show (radians yaw - 2 * Real.pi * k) * RAD_TO_DEG = yaw - 360 * k
    simp only [radians, RAD_TO_DEG]
    field_simp
    ring
  · show (radians roll - 2 * Real.pi * j) * RAD_TO_DEG = roll - 360 * j
    simp only [radians, RAD_TO_DEG]
    field_simp
    ring

/-- Witness for claim C3 at pitch = yaw = roll = 0: the hypotheses hold and
the round-trip reproduces the pitch. -/
theorem Quaternion'.from_rotation_as_rotation_roundtrip_witness :
    ((-90 : ℝ) < 0 ∧ (0 : ℝ) < 90 ∧ |Real.sin (radians 0)| ≤ 0.999999) ∧
    (Quaternion'.as_rotation (Quaternion'.from_rotation ⟨0, 0, 0⟩)).pitch = 0 :=
  ⟨⟨by norm_num, by norm_num, by norm_num [radians]⟩,
   (Quaternion'.from_rotation_as_rotation_roundtrip 0 0 0 (by norm_num) (by norm_num)
     (by norm_num [radians])).1⟩
